import Mathlib

/-!
# Verification of the CryoDecoder TLV serialization core

A shallow embedding of `CryoDecoder.go`: the codec registry with recursive
type resolution, the primitive and composite codecs, and the Encoder/Decoder
framing layer.  Byte streams are `List Nat` (each entry a byte value), Go's
machine integers are `Nat` with explicit `% 256` / `% 65536` / ... where the
source truncates, and every fallible operation returns `Except CErr`.

Recursion through the registry's codec table need not terminate in the
source (for example tag 18 is bound to the type `[]interface{}` whose codec
dispatches back to itself, and `resolveType` recurses forever on directly
self-referential struct types), so the recursive operations of the embedding
take an explicit fuel parameter; running out of fuel yields the distinguished
error `CErr.fuelOut`, which the source never produces.  A Go runtime panic is
modelled by the distinguished error `CErr.panicked`.
-/

mutual
/-- The model of `reflect.Type` restricted to the types the registry can
see: the seventeen primitive Go types registered by `RegisterPrimitives`,
the empty interface, `time.Location`, opaque `encoding.BinaryMarshaler`
implementors, and the composite kinds `resolveType` decomposes (pointer,
slice, array, map, struct).  Struct field lists use the mutually inductive
`Fields` so that structural recursion over types stays elementary. -/
inductive Ty where
  | tInt32 | tString | tFloat64 | tInt64 | tBool | tInt | tInt8 | tInt16
  | tUint | tUint8 | tUint16 | tUint32 | tUint64 | tUintptr | tFloat32
  | tComplex64 | tComplex128
  | tIface
  | tLocation
  | tMarshaler (id : Nat)
  | tPtr (elem : Ty)
  | tSlice (elem : Ty)
  | tArray (n : Nat) (elem : Ty)
  | tMap (key val : Ty)
  | tStruct (name : String) (fields : Fields)
  deriving DecidableEq

/-- An ordered struct field list: each entry is a field name and its type,
in declaration order (the order `reflect` reports them). -/
inductive Fields where
  | fnil
  | fcons (name : String) (t : Ty) (rest : Fields)
  deriving DecidableEq
end

/-- The error taxonomy of the embedding.  The source returns `error` values
built with `fmt.Errorf`; we retain only the kind of failure.  `panicked`
models a Go runtime panic (not an `error` return), and `fuelOut` is the
embedding artifact for running out of fuel. -/
inductive CErr where
  | typeMismatch
  | lengthErr
  | truncated
  | framing
  | unknownTag
  | unresolvable
  | convErr
  | panicked
  | fuelOut
  deriving DecidableEq, Repr

/-- The model of the `Codec` implementations of the source: one constructor
per codec struct, carrying exactly the fields the Go struct carries (minus
the back-pointer to the registry, which the model passes explicitly). -/
inductive CodecDesc where
  | int32C | stringC | float64C | int64C | boolC | intC | int8C | int16C
  | uintC | uint8C | uint16C | uint32C | uint64C | uintptrC | float32C
  | complex64C | complex128C
  | interfaceC
  | mapStringAnyC
  | locationC
  | pointerC (elemCodec : CodecDesc) (elemType : Ty)
  | sliceC (elemCodec : CodecDesc) (elemType : Ty)
  | arrayC (elemCodec : CodecDesc) (elemType : Ty) (arrayLen : Nat)
  | mapC (keyCodec valCodec : CodecDesc) (keyType valType : Ty)
  | structC (structType : Ty) (fields : List (String × Nat))
  | marshalerC (typ : Ty)
  deriving DecidableEq

/-- The model of `CodecRegistry`: `codecs` maps a tag to a codec, `types`
maps a type to a tag (both association lists where the most recent binding
is first, modelling Go map overwrite), and `nextStructTag` is the `byte`
counter for auto-assigned tags. -/
structure Registry where
  codecs : List (Nat × CodecDesc)
  types : List (Ty × Nat)
  nextStructTag : Nat
  deriving DecidableEq

/-- Lookup in the `types` map by type identity. -/
def lookupType (l : List (Ty × Nat)) (t : Ty) : Option Nat :=
  match l with
  | [] => none
  | (t2, tag) :: rest => if t2 = t then some tag else lookupType rest t

/-- Lookup in the `codecs` map. -/
def lookupCodec (l : List (Nat × CodecDesc)) (tag : Nat) : Option CodecDesc :=
  match l with
  | [] => none
  | (tg, c) :: rest => if tg = tag then some c else lookupCodec rest tag

/-- `RegisterCodec`: associate a tag with a codec and a type (overwriting
any previous binding for the same key). -/
def registerCodec (r : Registry) (tag : Nat) (c : CodecDesc) (t : Ty) : Registry :=
  { codecs := (tag, c) :: r.codecs
    types := (t, tag) :: r.types
    nextStructTag := r.nextStructTag }

/-- `NewCodecRegistry`: empty maps, auto-tag counter at 200 (tags 0-199 are
reserved for primitives). -/
def newCodecRegistry : Registry :=
  { codecs := [], types := [], nextStructTag := 200 }

/-- `GetCodec`: retrieve the codec for a tag, or the unknown-tag error. -/
def getCodecR (r : Registry) (tag : Nat) : Except CErr CodecDesc :=
  match lookupCodec r.codecs tag with
  | some c => .ok c
  | none => .error .unknownTag

/-- `RegisterPrimitives`: bind the twenty built-in codecs to tags 1-20.
Tag 18 is bound with the exemplar `[]any{}`, whose `reflect.TypeOf` is the
slice type `[]interface{}` (not `interface{}` itself), and tag 19's
exemplar is `map[string]interface{}(nil)`; the embedding reproduces both. -/
def registerPrimitives (r : Registry) : Registry :=
  let r := registerCodec r 1 .int32C .tInt32
  let r := registerCodec r 2 .stringC .tString
  let r := registerCodec r 3 .float64C .tFloat64
  let r := registerCodec r 4 .int64C .tInt64
  let r := registerCodec r 5 .boolC .tBool
  let r := registerCodec r 6 .intC .tInt
  let r := registerCodec r 7 .int8C .tInt8
  let r := registerCodec r 8 .int16C .tInt16
  let r := registerCodec r 9 .uintC .tUint
  let r := registerCodec r 10 .uint8C .tUint8
  let r := registerCodec r 11 .uint16C .tUint16
  let r := registerCodec r 12 .uint32C .tUint32
  let r := registerCodec r 13 .uint64C .tUint64
  let r := registerCodec r 14 .uintptrC .tUintptr
  let r := registerCodec r 15 .float32C .tFloat32
  let r := registerCodec r 16 .complex64C .tComplex64
  let r := registerCodec r 17 .complex128C .tComplex128
  let r := registerCodec r 18 .interfaceC (.tSlice .tIface)
  let r := registerCodec r 19 .mapStringAnyC (.tMap .tString .tIface)
  let r := registerCodec r 20 .locationC .tLocation
  r

/-- A fresh registry with the primitives registered, the starting state of
every scenario in the specification. -/
def primedRegistry : Registry := registerPrimitives newCodecRegistry

/-- The field-resolution loop of `RegisterStruct`: resolve each field's
type with the supplied resolver (in the source, `r.resolveType`), and
collect the `(field name, type tag)` descriptor entries in field order. -/
def resolveFields (res : Registry → Ty → Except CErr (Registry × Nat)) :
    Registry → Fields → Except CErr (Registry × List (String × Nat))
  | r, .fnil => .ok (r, [])
  | r, .fcons name t rest =>
    match res r t with
    | .error e => .error e
    | .ok (r1, typeTag) =>
      match resolveFields res r1 rest with
      | .error e => .error e
      | .ok (r2, descs) => .ok (r2, (name, typeTag) :: descs)

/-- The body of `RegisterStruct`, parameterised by the resolver used for
field types: unwrap a pointer-to-struct, reject non-structs, return the
existing tag if the struct is already registered, otherwise resolve every
field, allocate the next composite tag (a `byte`: the increment wraps
modulo 256) and bind the new `StructCodec`. -/
def registerStructGo (res : Registry → Ty → Except CErr (Registry × Nat))
    (r : Registry) (t0 : Ty) : Except CErr (Registry × Nat) :=
  let t := match t0 with
    | .tPtr e => e
    | _ => t0
  match t with
  | .tStruct _ fields =>
    match lookupType r.types t with
    | some tag => .ok (r, tag)
    | none =>
      match resolveFields res r fields with
      | .error e => .error e
      | .ok (r1, descs) =>
        let structTag := r1.nextStructTag
        let r2 := { r1 with nextStructTag := (r1.nextStructTag + 1) % 256 }
        .ok (registerCodec r2 structTag (.structC t descs) t, structTag)
  | _ => .error .typeMismatch

/-- `CodecRegistry.resolveType`: find or create a codec for a type.  The
numbered steps mirror the source: (1) the direct registry check, then the
pointer, slice, array and map cases (each resolving the element type(s),
fetching the element codec(s), allocating the next composite tag — the
`byte` counter wraps modulo 256 — and registering a wrapper codec), then
`time.Location`, `encoding.BinaryMarshaler` implementors, structs (via the
`RegisterStruct` body) and finally the unresolvable-type error. -/
def resolveType : Nat → Registry → Ty → Except CErr (Registry × Nat)
  | 0, _, _ => .error .fuelOut
  | fuel + 1, r, t =>
    match lookupType r.types t with
    | some tag => .ok (r, tag)
    | none =>
      match t with
      | .tPtr elem =>
        match resolveType fuel r elem with
        | .error e => .error e
        | .ok (r1, elemTag) =>
          match getCodecR r1 elemTag with
          | .error e => .error e
          | .ok elemCodec =>
            let ptrTag := r1.nextStructTag
            let r2 := { r1 with nextStructTag := (r1.nextStructTag + 1) % 256 }
            .ok (registerCodec r2 ptrTag (.pointerC elemCodec elem) t, ptrTag)
      | .tSlice elem =>
        match resolveType fuel r elem with
        | .error e => .error e
        | .ok (r1, elemTag) =>
          match getCodecR r1 elemTag with
          | .error e => .error e
          | .ok elemCodec =>
            let sliceTag := r1.nextStructTag
            let r2 := { r1 with nextStructTag := (r1.nextStructTag + 1) % 256 }
            .ok (registerCodec r2 sliceTag (.sliceC elemCodec elem) t, sliceTag)
      | .tArray n elem =>
        match resolveType fuel r elem with
        | .error e => .error e
        | .ok (r1, elemTag) =>
          match getCodecR r1 elemTag with
          | .error e => .error e
          | .ok elemCodec =>
            let arrayTag := r1.nextStructTag
            let r2 := { r1 with nextStructTag := (r1.nextStructTag + 1) % 256 }
            .ok (registerCodec r2 arrayTag (.arrayC elemCodec elem n) t, arrayTag)
      | .tMap key val =>
        match resolveType fuel r key with
        | .error e => .error e
        | .ok (r1, keyTag) =>
          match resolveType fuel r1 val with
          | .error e => .error e
          | .ok (r2, valTag) =>
            match getCodecR r2 keyTag with
            | .error e => .error e
            | .ok keyCodec =>
              match getCodecR r2 valTag with
              | .error e => .error e
              | .ok valCodec =>
                let mapTag := r2.nextStructTag
                let r3 := { r2 with nextStructTag := (r2.nextStructTag + 1) % 256 }
                .ok (registerCodec r3 mapTag (.mapC keyCodec valCodec key val) t, mapTag)
      | .tLocation =>
        let locTag := r.nextStructTag
        let r1 := { r with nextStructTag := (r.nextStructTag + 1) % 256 }
        .ok (registerCodec r1 locTag .locationC t, locTag)
      | .tMarshaler _ =>
        let marshalTag := r.nextStructTag
        let r1 := { r with nextStructTag := (r.nextStructTag + 1) % 256 }
        .ok (registerCodec r1 marshalTag (.marshalerC t) t, marshalTag)
      | .tStruct _ _ => registerStructGo (resolveType fuel) r t
      | _ => .error .unresolvable

/-- `CodecRegistry.RegisterStruct` as a public entry point. -/
def registerStruct (fuel : Nat) (r : Registry) (t : Ty) : Except CErr (Registry × Nat) :=
  match fuel with
  | 0 => .error .fuelOut
  | f + 1 => registerStructGo (resolveType f) r t

/-- `CodecRegistry.GetTag`: check the `types` map first, then fall back to
`resolveType`. -/
def getTag (fuel : Nat) (r : Registry) (t : Ty) : Except CErr (Registry × Nat) :=
  match lookupType r.types t with
  | some tag => .ok (r, tag)
  | none => resolveType fuel r t

/-- A sequence of successive registrations against one registry. -/
def resolveAll (fuel : Nat) (r : Registry) : List Ty → Except CErr Registry
  | [] => .ok r
  | t :: ts =>
    match resolveType fuel r t with
    | .error e => .error e
    | .ok (r1, _) => resolveAll fuel r1 ts

/-- An `n`-fold pointer type, used to drive many consecutive composite-tag
allocations out of a single `resolveType` call. -/
def ptrN : Nat → Ty → Ty
  | 0, t => t
  | n + 1, t => .tPtr (ptrN n t)

/-- The tag component of a resolution result, if it succeeded. -/
def resolvedTag (e : Except CErr (Registry × Nat)) : Option Nat :=
  e.toOption.map Prod.snd

/-- The registry component of a resolution result, if it succeeded. -/
def resolvedReg (e : Except CErr (Registry × Nat)) : Option Registry :=
  e.toOption.map Prod.fst

mutual
/-- The model of a Go runtime value as handed to `Codec.Encode` through an
`interface{}` parameter.  Numeric values are carried as their unsigned bit
patterns (a `Nat` below `2^width`; the codecs only ever move raw big-endian
bytes, and `math.Float64bits`/`Float64frombits` are mutually inverse raw
reinterpretations, so bit patterns model floats faithfully).  Strings are
their byte sequences.  `vPtrNil t` is a typed nil pointer `(*T)(nil)`
stored in an interface — which is *not* `== nil` in Go — while `vNilIface`
is the untyped nil interface, which is.  Map values carry their entries as
a sequence whose order models the iteration order Go happens to use; Go
map equality ignores that order (see `goValEq`). -/
inductive Value where
  | vInt32 (n : Nat)
  | vString (s : List Nat)
  | vFloat64 (bits : Nat)
  | vInt64 (n : Nat)
  | vBool (b : Bool)
  | vInt (n : Nat)
  | vInt8 (n : Nat)
  | vInt16 (n : Nat)
  | vUint (n : Nat)
  | vUint8 (n : Nat)
  | vUint16 (n : Nat)
  | vUint32 (n : Nat)
  | vUint64 (n : Nat)
  | vUintptr (n : Nat)
  | vFloat32 (bits : Nat)
  | vComplex64 (re im : Nat)
  | vComplex128 (re im : Nat)
  | vLocation (name : List Nat)
  | vMarshaler (id : Nat) (data : List Nat)
  | vPtrNil (elem : Ty)
  | vPtrSome (elem : Ty) (w : Value)
  | vSlice (elem : Ty) (vs : VList)
  | vArray (elem : Ty) (vs : VList)
  | vMap (key val : Ty) (entries : VEntries)
  | vStruct (name : String) (fields : Fields) (vals : VList)
  | vNilIface
  deriving DecidableEq

/-- A sequence of values (slice/array elements, struct field values). -/
inductive VList where
  | vnil
  | vcons (v : Value) (rest : VList)
  deriving DecidableEq

/-- A sequence of map entries in iteration order. -/
inductive VEntries where
  | enil
  | econs (k v : Value) (rest : VEntries)
  deriving DecidableEq
end

/-- The number of elements of a value sequence (`reflect.Value.Len` on a
slice or array). -/
def VList.length : VList → Nat
  | .vnil => 0
  | .vcons _ rest => rest.length + 1

/-- The number of entries of a map value (`reflect.Value.Len` on a map). -/
def VEntries.length : VEntries → Nat
  | .enil => 0
  | .econs _ _ rest => rest.length + 1

/-- `reflect.TypeOf` on a value: the dynamic type, or `none` for the untyped
nil interface (whose `reflect.TypeOf` is Go's nil `Type`, on which any method
call is a nil-pointer panic). -/
def valueTy : Value → Option Ty
  | .vInt32 _ => some .tInt32
  | .vString _ => some .tString
  | .vFloat64 _ => some .tFloat64
  | .vInt64 _ => some .tInt64
  | .vBool _ => some .tBool
  | .vInt _ => some .tInt
  | .vInt8 _ => some .tInt8
  | .vInt16 _ => some .tInt16
  | .vUint _ => some .tUint
  | .vUint8 _ => some .tUint8
  | .vUint16 _ => some .tUint16
  | .vUint32 _ => some .tUint32
  | .vUint64 _ => some .tUint64
  | .vUintptr _ => some .tUintptr
  | .vFloat32 _ => some .tFloat32
  | .vComplex64 _ _ => some .tComplex64
  | .vComplex128 _ _ => some .tComplex128
  | .vLocation _ => some .tLocation
  | .vMarshaler id _ => some (.tMarshaler id)
  | .vPtrNil t => some (.tPtr t)
  | .vPtrSome t _ => some (.tPtr t)
  | .vSlice t _ => some (.tSlice t)
  | .vArray t vs => some (.tArray vs.length t)
  | .vMap k v _ => some (.tMap k v)
  | .vStruct n fs _ => some (.tStruct n fs)
  | .vNilIface => none

/-- `w` bytes of `n` in big-endian order (what `binary.BigEndian.PutUintN`
writes): the value is implicitly truncated modulo `256^w`. -/
def beBytes : Nat → Nat → List Nat
  | 0, _ => []
  | w + 1, n => beBytes w (n / 256) ++ [n % 256]

/-- The big-endian value of a byte list (what `binary.BigEndian.UintN`
reads from a slice of the right width). -/
def beVal (bs : List Nat) : Nat :=
  bs.foldl (fun acc b => acc * 256 + b) 0

/-- One byte from a sequential reader; an empty source is the short-read
error (`io.EOF` / `io.ErrUnexpectedEOF`, both surfaced as errors). -/
def readByte (s : List Nat) : Except CErr (Nat × List Nat) :=
  match s with
  | [] => .error .truncated
  | b :: rest => .ok (b, rest)

/-- `io.ReadFull` of `n` bytes: exactly `n` bytes or a short-read error;
never reads past the available input. -/
def readFull (n : Nat) (s : List Nat) : Except CErr (List Nat × List Nat) :=
  if s.length < n then .error .truncated
  else .ok (s.take n, s.drop n)

/-- `val.FieldByName(name)` on a struct value: walk the field list and the
value list in parallel. -/
def lookupField : Fields → VList → String → Option Value
  | .fcons n _ r, .vcons v vs, name =>
    if n = name then some v else lookupField r vs name
  | _, _, _ => none

/-- The field loop of `StructCodec.Encode`, parameterised by the recursive
encoder: for each `(name, typeTag)` descriptor entry in order, look the
field value up by name, fetch the field's codec from the registry, encode,
and emit the nested TLV `tag, 2, u16 length, payload`.  (The source's
interface-field unwrap `fieldVal.Elem()` is the identity here because the
model stores the concrete value directly.) -/
def encodeStructFields (enc : Registry → CodecDesc → Value → Except CErr (Registry × List Nat))
    (fs : Fields) (vals : VList) :
    Registry → List (String × Nat) → Except CErr (Registry × List Nat)
  | r, [] => .ok (r, [])
  | r, (name, typeTag) :: rest =>
    match lookupField fs vals name with
    | none => .error .typeMismatch
    | some fieldVal =>
      match getCodecR r typeTag with
      | .error e => .error e
      | .ok codec =>
        match enc r codec fieldVal with
        | .error e => .error e
        | .ok (r1, encoded) =>
          match encodeStructFields enc fs vals r1 rest with
          | .error e => .error e
          | .ok (r2, out) =>
            .ok (r2, typeTag :: 2 :: beBytes 2 encoded.length ++ encoded ++ out)

/-- The element loop shared by `SliceCodec.Encode` and `ArrayCodec.Encode`
(their per-element bodies are identical in the source): each element is
emitted as a u32 length followed by its payload. -/
def encodeListElems (enc : Registry → Value → Except CErr (Registry × List Nat)) :
    Registry → VList → Except CErr (Registry × List Nat)
  | r, .vnil => .ok (r, [])
  | r, .vcons v vs =>
    match enc r v with
    | .error e => .error e
    | .ok (r1, data) =>
      match encodeListElems enc r1 vs with
      | .error e => .error e
      | .ok (r2, out) => .ok (r2, beBytes 4 data.length ++ data ++ out)

/-- The entry loop of `MapCodec.Encode`: u32 key length, key payload, u32
value length, value payload, for each entry in iteration order. -/
def encodeMapEntries (encK encV : Registry → Value → Except CErr (Registry × List Nat)) :
    Registry → VEntries → Except CErr (Registry × List Nat)
  | r, .enil => .ok (r, [])
  | r, .econs k v es =>
    match encK r k with
    | .error e => .error e
    | .ok (r1, kd) =>
      match encV r1 v with
      | .error e => .error e
      | .ok (r2, vd) =>
        match encodeMapEntries encK encV r2 es with
        | .error e => .error e
        | .ok (r3, out) =>
          .ok (r3, beBytes 4 kd.length ++ kd ++ beBytes 4 vd.length ++ vd ++ out)

/-- The entry loop of `MapStringAnyCodec.Encode`: u16 key length, raw key
bytes (`StringCodec`), u16 value length, value bytes (`InterfaceCodec`). -/
def encodeMSAEntries (encAny : Registry → Value → Except CErr (Registry × List Nat)) :
    Registry → VEntries → Except CErr (Registry × List Nat)
  | r, .enil => .ok (r, [])
  | r, .econs k v es =>
    match k with
    | .vString s =>
      match encAny r v with
      | .error e => .error e
      | .ok (r1, vb) =>
        match encodeMSAEntries encAny r1 es with
        | .error e => .error e
        | .ok (r2, out) =>
          .ok (r2, beBytes 2 s.length ++ s ++ beBytes 2 vb.length ++ vb ++ out)
    | _ => .error .typeMismatch

/-- `Codec.Encode` for every codec of the source, dispatching on the codec
description.  The registry is threaded through because `InterfaceCodec`
resolves the concrete type of its operand against the shared registry,
possibly registering new composite types mid-encode.  Note the pointer
case: an untyped nil takes the `value == nil` branch and yields `[0]`, but
a *typed* nil pointer does not compare equal to nil, passes the
`rv.Kind() != reflect.Ptr` check, reaches `rv.Elem().Interface()` — the
zero `reflect.Value` — and panics. -/
def codecEncode : Nat → Registry → CodecDesc → Value → Except CErr (Registry × List Nat)
  | 0, _, _, _ => .error .fuelOut
  | fuel + 1, r, c, v =>
    match c with
    | .int32C => match v with
      | .vInt32 n => .ok (r, beBytes 4 n)
      | _ => .error .typeMismatch
    | .stringC => match v with
      | .vString s => .ok (r, s)
      | _ => .error .typeMismatch
    | .float64C => match v with
      | .vFloat64 bits => .ok (r, beBytes 8 bits)
      | _ => .error .typeMismatch
    | .int64C => match v with
      | .vInt64 n => .ok (r, beBytes 8 n)
      | _ => .error .typeMismatch
    | .boolC => match v with
      | .vBool b => .ok (r, [if b then 1 else 0])
      | _ => .error .typeMismatch
    | .intC => match v with
      | .vInt n => .ok (r, beBytes 8 n)
      | _ => .error .typeMismatch
    | .int8C => match v with
      | .vInt8 n => .ok (r, beBytes 1 n)
      | _ => .error .typeMismatch
    | .int16C => match v with
      | .vInt16 n => .ok (r, beBytes 2 n)
      | _ => .error .typeMismatch
    | .uintC => match v with
      | .vUint n => .ok (r, beBytes 8 n)
      | _ => .error .typeMismatch
    | .uint8C => match v with
      | .vUint8 n => .ok (r, beBytes 1 n)
      | _ => .error .typeMismatch
    | .uint16C => match v with
      | .vUint16 n => .ok (r, beBytes 2 n)
      | _ => .error .typeMismatch
    | .uint32C => match v with
      | .vUint32 n => .ok (r, beBytes 4 n)
      | _ => .error .typeMismatch
    | .uint64C => match v with
      | .vUint64 n => .ok (r, beBytes 8 n)
      | _ => .error .typeMismatch
    | .uintptrC => match v with
      | .vUintptr n => .ok (r, beBytes 8 n)
      | _ => .error .typeMismatch
    | .float32C => match v with
      | .vFloat32 bits => .ok (r, beBytes 4 bits)
      | _ => .error .typeMismatch
    | .complex64C => match v with
      | .vComplex64 re im => .ok (r, beBytes 4 re ++ beBytes 4 im)
      | _ => .error .typeMismatch
    | .complex128C => match v with
      | .vComplex128 re im => .ok (r, beBytes 8 re ++ beBytes 8 im)
      | _ => .error .typeMismatch
    | .locationC => match v with
      | .vLocation s => .ok (r, s)
      | _ => .error .typeMismatch
    | .marshalerC _ => match v with
      | .vMarshaler _ data => .ok (r, beBytes 2 data.length ++ data)
      | _ => .error .typeMismatch
    | .interfaceC =>
      match v with
      | .vNilIface => .ok (r, [])
      | _ =>
        match valueTy v with
        | none => .error .panicked
        | some t =>
          match getTag fuel r t with
          | .error e => .error e
          | .ok (r1, tag) =>
            match getCodecR r1 tag with
            | .error e => .error e
            | .ok codec =>
              match codecEncode fuel r1 codec v with
              | .error e => .error e
              | .ok (r2, data) => .ok (r2, tag :: beBytes 2 data.length ++ data)
    | .pointerC elemCodec _ =>
      match v with
      | .vNilIface => .ok (r, [0])
      | .vPtrNil _ => .error .panicked
      | .vPtrSome _ w =>
        match codecEncode fuel r elemCodec w with
        | .error e => .error e
        | .ok (r1, data) => .ok (r1, 1 :: data)
      | _ => .error .typeMismatch
    | .sliceC elemCodec _ =>
      match v with
      | .vSlice _ vs =>
        match encodeListElems (fun r2 w => codecEncode fuel r2 elemCodec w) r vs with
        | .error e => .error e
        | .ok (r1, body) => .ok (r1, beBytes 4 vs.length ++ body)
      | _ => .error .typeMismatch
    | .arrayC elemCodec _ arrayLen =>
      match v with
      | .vArray _ vs =>
        if vs.length = arrayLen then
          match encodeListElems (fun r2 w => codecEncode fuel r2 elemCodec w) r vs with
          | .error e => .error e
          | .ok (r1, body) => .ok (r1, body)
        else .error .lengthErr
      | _ => .error .typeMismatch
    | .mapC keyCodec valCodec _ _ =>
      match v with
      | .vMap _ _ es =>
        match encodeMapEntries (fun r2 w => codecEncode fuel r2 keyCodec w)
            (fun r2 w => codecEncode fuel r2 valCodec w) r es with
        | .error e => .error e
        | .ok (r1, body) => .ok (r1, beBytes 4 es.length ++ body)
      | _ => .error .typeMismatch
    | .mapStringAnyC =>
      match v with
      | .vMap .tString .tIface es =>
        match encodeMSAEntries (fun r2 w => codecEncode fuel r2 .interfaceC w) r es with
        | .error e => .error e
        | .ok (r1, body) => .ok (r1, beBytes 4 es.length ++ body)
      | _ => .error .typeMismatch
    | .structC structType cfields =>
      -- StructCodec.Encode first dereferences a pointer operand once.
      let v2 := match v with
        | .vPtrSome _ w => w
        | w => w
      match v2 with
      | .vStruct n fs vals =>
        if (Ty.tStruct n fs) = structType then
          encodeStructFields (fun r2 c2 w => codecEncode fuel r2 c2 w) fs vals r cfields
        else .error .typeMismatch
      | _ => .error .typeMismatch

/-- The field loop of `StructCodec.Decode`, parameterised by the recursive
decoder: for each descriptor entry in order, read the field tag (which must
equal the registered tag — the strict discipline), read and ignore the
length-of-length byte, read a u16 length, read that many payload bytes,
and decode with the codec the registry currently binds to the tag. -/
def decodeStructFields (dec : CodecDesc → List Nat → Except CErr Value)
    (r : Registry) : List (String × Nat) → List Nat → Except CErr VList
  | [], _ => .ok .vnil
  | (_, typeTag) :: rest, s =>
    match readByte s with
    | .error e => .error e
    | .ok (tag, s1) =>
      if tag ≠ typeTag then .error .typeMismatch
      else
        match readByte s1 with
        | .error e => .error e
        | .ok (_, s2) =>
          match readFull 2 s2 with
          | .error e => .error e
          | .ok (lenB, s3) =>
            match readFull (beVal lenB) s3 with
            | .error e => .error e
            | .ok (payload, s4) =>
              match getCodecR r tag with
              | .error e => .error e
              | .ok codec =>
                match dec codec payload with
                | .error e => .error e
                | .ok v =>
                  match decodeStructFields dec r rest s4 with
                  | .error e => .error e
                  | .ok vs => .ok (.vcons v vs)

/-- The element loop shared by `SliceCodec.Decode` and `ArrayCodec.Decode`:
read `count` elements, each a u32 length followed by that many payload
bytes handed to the element decoder. -/
def decodeCountedElems (dec : List Nat → Except CErr Value) :
    Nat → List Nat → Except CErr VList
  | 0, _ => .ok .vnil
  | n + 1, s =>
    match readFull 4 s with
    | .error e => .error e
    | .ok (lenB, s1) =>
      match readFull (beVal lenB) s1 with
      | .error e => .error e
      | .ok (elemData, s2) =>
        match dec elemData with
        | .error e => .error e
        | .ok v =>
          match decodeCountedElems dec n s2 with
          | .error e => .error e
          | .ok vs => .ok (.vcons v vs)

/-- The entry loop of `MapCodec.Decode`: u32 key length, key payload, u32
value length, value payload, decoded in order (the decoded entries are kept
in stream order, which is how they enter the freshly made Go map). -/
def decodeMapEntries (decK decV : List Nat → Except CErr Value) :
    Nat → List Nat → Except CErr VEntries
  | 0, _ => .ok .enil
  | n + 1, s =>
    match readFull 4 s with
    | .error e => .error e
    | .ok (kLenB, s1) =>
      match readFull (beVal kLenB) s1 with
      | .error e => .error e
      | .ok (kData, s2) =>
        match decK kData with
        | .error e => .error e
        | .ok kv =>
          match readFull 4 s2 with
          | .error e => .error e
          | .ok (vLenB, s3) =>
            match readFull (beVal vLenB) s3 with
            | .error e => .error e
            | .ok (vData, s4) =>
              match decV vData with
              | .error e => .error e
              | .ok vv =>
                match decodeMapEntries decK decV n s4 with
                | .error e => .error e
                | .ok es => .ok (.econs kv vv es)

/-- The entry loop of `MapStringAnyCodec.Decode`: u16 key length, raw key
bytes (`StringCodec.Decode` never fails), u16 value length, value bytes
decoded by `InterfaceCodec`. -/
def decodeMSAEntries (decAny : List Nat → Except CErr Value) :
    Nat → List Nat → Except CErr VEntries
  | 0, _ => .ok .enil
  | n + 1, s =>
    match readFull 2 s with
    | .error e => .error e
    | .ok (kLenB, s1) =>
      match readFull (beVal kLenB) s1 with
      | .error e => .error e
      | .ok (kBytes, s2) =>
        match readFull 2 s2 with
        | .error e => .error e
        | .ok (vLenB, s3) =>
          match readFull (beVal vLenB) s3 with
          | .error e => .error e
          | .ok (vBytes, s4) =>
            match decAny vBytes with
            | .error e => .error e
            | .ok vv =>
              match decodeMSAEntries decAny n s4 with
              | .error e => .error e
              | .ok es => .ok (.econs (.vString kBytes) vv es)

/-- `Codec.Decode` for every codec of the source.  Fixed-width codecs
enforce their exact length; `StringCodec` never fails.  The interface and
marshaler codecs reproduce the source's `uint16` arithmetic on the slice
bound `3+length` (resp. `2+length`), including the wrap-around for lengths
at the top of the `uint16` range, where the source's slice expression
`data[3 : 3+length]` has a low bound above its wrapped high bound and
panics.  `LocationCodec.Decode` is modelled as a successful name lookup
(`time.LoadLocation` touching the timezone database is outside the model;
an empty name yields UTC as in the source). -/
def codecDecode : Nat → Registry → CodecDesc → List Nat → Except CErr Value
  | 0, _, _, _ => .error .fuelOut
  | fuel + 1, r, c, data =>
    match c with
    | .int32C =>
      if data.length = 4 then .ok (.vInt32 (beVal data)) else .error .lengthErr
    | .stringC => .ok (.vString data)
    | .float64C =>
      if data.length = 8 then .ok (.vFloat64 (beVal data)) else .error .lengthErr
    | .int64C =>
      if data.length = 8 then .ok (.vInt64 (beVal data)) else .error .lengthErr
    | .boolC =>
      match data with
      | [b] => .ok (.vBool (b == 1))
      | _ => .error .lengthErr
    | .intC =>
      if data.length = 8 then .ok (.vInt (beVal data)) else .error .lengthErr
    | .int8C =>
      if data.length = 1 then .ok (.vInt8 (beVal data)) else .error .lengthErr
    | .int16C =>
      if data.length = 2 then .ok (.vInt16 (beVal data)) else .error .lengthErr
    | .uintC =>
      if data.length = 8 then .ok (.vUint (beVal data)) else .error .lengthErr
    | .uint8C =>
      if data.length = 1 then .ok (.vUint8 (beVal data)) else .error .lengthErr
    | .uint16C =>
      if data.length = 2 then .ok (.vUint16 (beVal data)) else .error .lengthErr
    | .uint32C =>
      if data.length = 4 then .ok (.vUint32 (beVal data)) else .error .lengthErr
    | .uint64C =>
      if data.length = 8 then .ok (.vUint64 (beVal data)) else .error .lengthErr
    | .uintptrC =>
      if data.length = 8 then .ok (.vUintptr (beVal data)) else .error .lengthErr
    | .float32C =>
      if data.length = 4 then .ok (.vFloat32 (beVal data)) else .error .lengthErr
    | .complex64C =>
      if data.length = 8 then
        .ok (.vComplex64 (beVal (data.take 4)) (beVal (data.drop 4)))
      else .error .lengthErr
    | .complex128C =>
      if data.length = 16 then
        .ok (.vComplex128 (beVal (data.take 8)) (beVal (data.drop 8)))
      else .error .lengthErr
    | .locationC =>
      if data = [] then .ok (.vLocation [85, 84, 67])
      else .ok (.vLocation data)
    | .marshalerC typ =>
      match typ with
      | .tMarshaler id =>
        if data.length < 2 then .error .lengthErr
        else
          let length := beVal (data.take 2)
          if data.length % 65536 < (2 + length) % 65536 then .error .lengthErr
          else if (2 + length) % 65536 < 2 then .error .panicked
          else .ok (.vMarshaler id ((data.take ((2 + length) % 65536)).drop 2))
      | _ => .error .typeMismatch
    | .interfaceC =>
      match data with
      | [] => .ok .vNilIface
      | tag :: rest =>
        if rest.length < 2 then .error .lengthErr
        else
          let length := beVal (rest.take 2)
          if (rest.length + 1) % 65536 < (3 + length) % 65536 then .error .lengthErr
          else if (3 + length) % 65536 < 3 then .error .panicked
          else
            match getCodecR r tag with
            | .error e => .error e
            | .ok codec =>
              codecDecode fuel r codec
                (((tag :: rest).take ((3 + length) % 65536)).drop 3)
    | .pointerC elemCodec elemType =>
      match data with
      | [] => .error .lengthErr
      | s :: rest =>
        if s = 0 then .ok (.vPtrNil elemType)
        else
          match codecDecode fuel r elemCodec rest with
          | .error e => .error e
          | .ok v => .ok (.vPtrSome elemType v)
    | .sliceC elemCodec elemType =>
      match readFull 4 data with
      | .error e => .error e
      | .ok (countB, s1) =>
        match decodeCountedElems (fun d => codecDecode fuel r elemCodec d) (beVal countB) s1 with
        | .error e => .error e
        | .ok vs => .ok (.vSlice elemType vs)
    | .arrayC elemCodec elemType arrayLen =>
      match decodeCountedElems (fun d => codecDecode fuel r elemCodec d) arrayLen data with
      | .error e => .error e
      | .ok vs => .ok (.vArray elemType vs)
    | .mapC keyCodec valCodec keyType valType =>
      match readFull 4 data with
      | .error e => .error e
      | .ok (countB, s1) =>
        match decodeMapEntries (fun d => codecDecode fuel r keyCodec d)
            (fun d => codecDecode fuel r valCodec d) (beVal countB) s1 with
        | .error e => .error e
        | .ok es => .ok (.vMap keyType valType es)
    | .mapStringAnyC =>
      match readFull 4 data with
      | .error e => .error e
      | .ok (countB, s1) =>
        match decodeMSAEntries (fun d => codecDecode fuel r .interfaceC d) (beVal countB) s1 with
        | .error e => .error e
        | .ok es => .ok (.vMap .tString .tIface es)
    | .structC structType cfields =>
      match structType with
      | .tStruct sname sfields =>
        match decodeStructFields (fun c2 d => codecDecode fuel r c2 d) r cfields data with
        | .error e => .error e
        | .ok vals => .ok (.vStruct sname sfields vals)
      | _ => .error .typeMismatch

/-- The frame written by `Encoder.Encode` around a payload: begin marker
0xAB, the tag byte, the fixed length-of-length byte 2, the payload length
as a big-endian `uint16` (so truncated modulo 65536), the payload itself,
and the end marker 0xCD. -/
def buildFrame (tag : Nat) (payload : List Nat) : List Nat :=
  171 :: tag :: 2 :: beBytes 2 payload.length ++ payload ++ [205]

/-- The payload length a frame declares: the big-endian value of the two
bytes after the begin marker, tag and length-of-length bytes. -/
def declaredLen (frame : List Nat) : Nat :=
  beVal ((frame.drop 3).take 2)

/-- `Encoder.Encode`: resolve the value's tag through the registry
(registering its type on first use), fetch its codec, encode the payload,
and wrap it in a frame.  Passing the untyped nil interface panics inside
`resolveType` (`t.Kind()` on a nil `reflect.Type`). -/
def encoderEncode (fuel : Nat) (r : Registry) (v : Value) : Except CErr (Registry × List Nat) :=
  match valueTy v with
  | none => .error .panicked
  | some t =>
    match getTag fuel r t with
    | .error e => .error e
    | .ok (r1, tag) =>
      match getCodecR r1 tag with
      | .error e => .error e
      | .ok codec =>
        match codecEncode fuel r1 codec v with
        | .error e => .error e
        | .ok (r2, payload) => .ok (r2, buildFrame tag payload)

/-- `Decoder.Decode`: read and check the begin marker, read the tag, read
the length-of-length byte, read that many length bytes, interpret them with
`binary.BigEndian.Uint16` — which indexes the first two bytes and therefore
panics when fewer than two were read — read the declared number of payload
bytes, dispatch to the tag's codec, and check the end marker. -/
def decoderDecode (fuel : Nat) (r : Registry) (s : List Nat) : Except CErr Value :=
  match readByte s with
  | .error e => .error e
  | .ok (m, s1) =>
    if m ≠ 171 then .error .framing
    else
      match readByte s1 with
      | .error e => .error e
      | .ok (tag, s2) =>
        match readByte s2 with
        | .error e => .error e
        | .ok (lol, s3) =>
          match readFull lol s3 with
          | .error e => .error e
          | .ok (lengthBytes, s4) =>
            if lengthBytes.length < 2 then .error .panicked
            else
              let length := beVal (lengthBytes.take 2)
              match readFull length s4 with
              | .error e => .error e
              | .ok (payload, s5) =>
                match getCodecR r tag with
                | .error e => .error e
                | .ok codec =>
                  match codecDecode fuel r codec payload with
                  | .error e => .error e
                  | .ok value =>
                    match readByte s5 with
                    | .error e => .error e
                    | .ok (m2, _) =>
                      if m2 ≠ 205 then .error .framing
                      else .ok value

/-- Pointwise comparison of two value sequences. -/
def goValEqL (eq2 : Value → Value → Bool) : VList → VList → Bool
  | .vnil, .vnil => true
  | .vcons x xs, .vcons y ys => eq2 x y && goValEqL eq2 xs ys
  | _, _ => false

/-- Whether an equal entry (key and value) occurs somewhere in `es`. -/
def goValEqScan (eq2 : Value → Value → Bool) (k v : Value) : VEntries → Bool
  | .enil => false
  | .econs k2 v2 rest => (eq2 k k2 && eq2 v v2) || goValEqScan eq2 k v rest

/-- Whether every entry of the second sequence occurs in `target`. -/
def goValEqE (eq2 : Value → Value → Bool) (target : VEntries) : VEntries → Bool
  | .enil => true
  | .econs k v rest => goValEqScan eq2 k v target && goValEqE eq2 target rest

/-- The model of Go value equality (`reflect.DeepEqual`, which is what
"the same value" means across two encode calls): structural equality
everywhere except at maps, where entry order is irrelevant — two maps are
equal when they have the same number of entries and every entry of one
occurs in the other.  Fuel-indexed; `goValEq f v w = true` for any `f`
only relates Go-equal values. -/
def goValEq : Nat → Value → Value → Bool
  | 0, _, _ => false
  | f + 1, v, w =>
    match v with
    | .vPtrSome t a =>
      match w with
      | .vPtrSome u b => t == u && goValEq f a b
      | _ => false
    | .vSlice t xs =>
      match w with
      | .vSlice u ys => t == u && goValEqL (goValEq f) xs ys
      | _ => false
    | .vArray t xs =>
      match w with
      | .vArray u ys => t == u && goValEqL (goValEq f) xs ys
      | _ => false
    | .vMap k1 w1 e1 =>
      match w with
      | .vMap k2 w2 e2 =>
        k1 == k2 && w1 == w2 && e1.length == e2.length && goValEqE (goValEq f) e2 e1
      | _ => false
    | .vStruct n1 fs1 vs1 =>
      match w with
      | .vStruct n2 fs2 vs2 => n1 == n2 && fs1 == fs2 && goValEqL (goValEq f) vs1 vs2
      | _ => false
    | .vInt32 a => decide (Value.vInt32 a = w)
    | .vString a => decide (Value.vString a = w)
    | .vFloat64 a => decide (Value.vFloat64 a = w)
    | .vInt64 a => decide (Value.vInt64 a = w)
    | .vBool a => decide (Value.vBool a = w)
    | .vInt a => decide (Value.vInt a = w)
    | .vInt8 a => decide (Value.vInt8 a = w)
    | .vInt16 a => decide (Value.vInt16 a = w)
    | .vUint a => decide (Value.vUint a = w)
    | .vUint8 a => decide (Value.vUint8 a = w)
    | .vUint16 a => decide (Value.vUint16 a = w)
    | .vUint32 a => decide (Value.vUint32 a = w)
    | .vUint64 a => decide (Value.vUint64 a = w)
    | .vUintptr a => decide (Value.vUintptr a = w)
    | .vFloat32 a => decide (Value.vFloat32 a = w)
    | .vComplex64 a b => decide (Value.vComplex64 a b = w)
    | .vComplex128 a b => decide (Value.vComplex128 a b = w)
    | .vLocation a => decide (Value.vLocation a = w)
    | .vMarshaler i a => decide (Value.vMarshaler i a = w)
    | .vPtrNil t => decide (Value.vPtrNil t = w)
    | .vNilIface => decide (Value.vNilIface = w)

/-- Whether every value of a sequence satisfies the predicate. -/
def mapFreeL (mf : Value → Bool) : VList → Bool
  | .vnil => true
  | .vcons v rest => mf v && mapFreeL mf rest

/-- Whether a value contains no map anywhere (so Go equality on it is plain
structural equality and encoding cannot depend on iteration order). -/
def mapFree : Nat → Value → Bool
  | 0, _ => false
  | f + 1, v =>
    match v with
    | .vMap _ _ _ => false
    | .vPtrSome _ w => mapFree f w
    | .vSlice _ xs => mapFreeL (mapFree f) xs
    | .vArray _ xs => mapFreeL (mapFree f) xs
    | .vStruct _ _ vs => mapFreeL (mapFree f) vs
    | _ => true

/-! ## Shared facts about the frame layout -/

theorem beBytes_two (n : Nat) : beBytes 2 n = [n / 256 % 256, n % 256] := rfl

theorem declaredLen_buildFrame (tag : Nat) (p : List Nat) :
    declaredLen (buildFrame tag p) = p.length % 65536 := by
  have h : p.length % (256 * 256) = p.length % 256 + 256 * (p.length / 256 % 256) :=
    Nat.mod_mul
  have h2 : (256 : Nat) * 256 = 65536 := by norm_num
  rw [h2] at h
  simp [declaredLen, buildFrame, beBytes_two, beVal]
  omega

theorem length_buildFrame (tag : Nat) (p : List Nat) :
    (buildFrame tag p).length = p.length + 6 := by
  simp [buildFrame, beBytes_two]

theorem drop_five_buildFrame (tag : Nat) (p : List Nat) :
    (buildFrame tag p).drop 5 = p ++ [205] := by
  simp [buildFrame, beBytes_two]

/-! ## The claims -/

/-- C1: the claimed universal round trip fails at the absent pointer.  A
typed nil pointer such as `(*int32)(nil)` stored in an `interface{}` is not
`== nil`, so `PointerCodec.Encode` falls past its nil check to
`rv.Elem().Interface()`, which panics on the zero `reflect.Value`:
`Encoder.Encode` of the absent pointer panics instead of producing the
frame the round-trip property needs, contradicting the code's own comments
("adds logic to handle nil pointers", "0x00 represents nil"). -/
theorem claim1_nil_pointer_encode_panics :
    encoderEncode 10 primedRegistry (.vPtrNil .tInt32) = .error .panicked := rfl

/-- C2: with int32 registered at tag 1 (as `RegisterPrimitives` does),
encoding the int32 value 42 yields exactly the bytes
`AB 01 02 00 04 00 00 00 2A CD`, and decoding exactly those bytes yields
back the int32 value 42. -/
theorem claim2_int32_frame_bytes :
    encoderEncode 1 primedRegistry (.vInt32 42)
      = .ok (primedRegistry, [171, 1, 2, 0, 4, 0, 0, 0, 42, 205]) ∧
    decoderDecode 1 primedRegistry [171, 1, 2, 0, 4, 0, 0, 0, 42, 205]
      = .ok (.vInt32 42) := ⟨rfl, rfl⟩

/-- C6: evaluation of `PointerCodec` at the claim's inputs.  Decoding works
as claimed: sentinel 0 yields the typed nil pointer whatever follows, and
sentinel 1 hands the remaining bytes to the inner codec and wraps the
result in a pointer.  But encoding the nil `*int32` panics (typed nil in an
interface is not `== nil`) instead of producing the claimed payload `00`. -/
theorem claim6_pointer_codec_eval :
    codecEncode 1 primedRegistry (.pointerC .int32C .tInt32) (.vPtrNil .tInt32)
      = .error .panicked ∧
    codecDecode 1 primedRegistry (.pointerC .int32C .tInt32) [0]
      = .ok (.vPtrNil .tInt32) ∧
    (∀ (f : Nat) (r : Registry) (ec : CodecDesc) (et : Ty) (rest : List Nat),
      codecDecode (f + 1) r (.pointerC ec et) (0 :: rest) = .ok (.vPtrNil et)) ∧
    codecDecode 2 primedRegistry (.pointerC .int32C .tInt32) [1, 0, 0, 0, 42]
      = .ok (.vPtrSome .tInt32 (.vInt32 42)) ∧
    (∀ (f : Nat) (r : Registry) (ec : CodecDesc) (et : Ty) (rest : List Nat),
      codecDecode (f + 1) r (.pointerC ec et) (1 :: rest)
        = match codecDecode f r ec rest with
          | .error e => .error e
          | .ok v => .ok (.vPtrSome et v)) ∧
    codecEncode 2 primedRegistry (.pointerC .int32C .tInt32) (.vPtrSome .tInt32 (.vInt32 42))
      = .ok (primedRegistry, [1, 0, 0, 0, 42]) :=
  ⟨rfl, rfl, fun _ _ _ _ _ => rfl, rfl, fun _ _ _ _ _ => rfl, rfl⟩

/-- C7 (counterexample): `BoolCodec.Decode` of the single byte 2 returns
`false` without an error — it neither treats every nonzero byte as true
nor rejects bytes other than 0 and 1, refuting both permitted disciplines
at once. -/
theorem claim7_bool_decode_nonzero_cex :
    codecDecode 1 primedRegistry .boolC [2] = .ok (.vBool false) ∧
    codecDecode 1 primedRegistry .boolC [2] ≠ .ok (.vBool true) ∧
    (codecDecode 1 primedRegistry .boolC [2]).isOk = true := by
  refine ⟨rfl, ?_, rfl⟩
  intro h
  exact absurd (Except.ok.inj h) (by simp)

/-- C7 (amended): `BoolCodec` encodes true as the byte 1 and false as the
byte 0; its decode of any single byte `n` returns `n == 1` — exactly the
byte 1 means true, every other byte means false — and the round trip
preserves both boolean values. -/
theorem claim7_bool_codec_amended :
    ∀ (f : Nat) (r : Registry) (b : Bool) (n : Nat),
      codecEncode (f + 1) r .boolC (.vBool true) = .ok (r, [1]) ∧
      codecEncode (f + 1) r .boolC (.vBool false) = .ok (r, [0]) ∧
      codecDecode (f + 1) r .boolC [n] = .ok (.vBool (n == 1)) ∧
      codecDecode (f + 1) r .boolC [if b then 1 else 0] = .ok (.vBool b) := by
  intro f r b n
  refine ⟨rfl, rfl, rfl, ?_⟩
  cases b <;> rfl

/-- C10: `Encoder.Encode` declares the payload length modulo 2^16: the
frame always contains the whole payload, its declared 16-bit big-endian
length equals `len(payload) % 65536`, the two agree exactly when the
payload fits in 65535 bytes, and a 70000-byte string still encodes
successfully with declared length 4464 = 70000 mod 65536. -/
theorem claim10_length_mod_65536 :
    ∀ (tag : Nat) (p : List Nat),
      (buildFrame tag p).length = p.length + 6 ∧
      declaredLen (buildFrame tag p) = p.length % 65536 ∧
      (p.length < 65536 → declaredLen (buildFrame tag p) = p.length) ∧
      (buildFrame tag p).drop 5 = p ++ [205] ∧
      encoderEncode 1 primedRegistry (.vString (List.replicate 70000 65))
        = .ok (primedRegistry, buildFrame 2 (List.replicate 70000 65)) ∧
      declaredLen (buildFrame 2 (List.replicate 70000 65)) = 4464 := by
  intro tag p
  refine ⟨length_buildFrame tag p, declaredLen_buildFrame tag p, ?_, drop_five_buildFrame tag p, rfl, ?_⟩
  · intro hlt
    rw [declaredLen_buildFrame, Nat.mod_eq_of_lt hlt]
  · rw [declaredLen_buildFrame, List.length_replicate]

/-- C10 witness: the general statement applied at tag 7 and the one-byte
payload `[9]`, whose declared length is its true length 1. -/
theorem claim10_length_mod_65536_witness :
    declaredLen (buildFrame 7 [9]) = 1 :=
  (claim10_length_mod_65536 7 [9]).2.2.1 (by decide)

/-! ## Shared facts about short reads -/

theorem readFull_cons_two (hi lo : Nat) (s : List Nat) :
    readFull 2 (hi :: lo :: s) = .ok ([hi, lo], s) := by
  simp [readFull]

theorem readFull_cons_four (b3 b2 b1 b0 : Nat) (s : List Nat) :
    readFull 4 (b3 :: b2 :: b1 :: b0 :: s) = .ok ([b3, b2, b1, b0], s) := by
  simp [readFull]

theorem readFull_too_short (n : Nat) (s : List Nat) (h : s.length < n) :
    readFull n s = .error .truncated := by
  simp [readFull, h]

theorem readFull_exact (n : Nat) (s : List Nat) (h : n ≤ s.length) :
    readFull n s = .ok (s.take n, s.drop n) := by
  simp [readFull, Nat.not_lt.mpr h]

theorem beVal_two (hi lo : Nat) : beVal [hi, lo] = hi * 256 + lo := by
  simp [beVal]

theorem beVal_four (b3 b2 b1 b0 : Nat) :
    beVal [b3, b2, b1, b0] = ((b3 * 256 + b2) * 256 + b1) * 256 + b0 := by
  simp [beVal]

/-! ## Truncation behaviour (claim C3) -/

theorem decoder_payload_truncated (fuel : Nat) (r : Registry) (tag hi lo : Nat)
    (payload : List Nat) (h : payload.length < hi * 256 + lo) :
    decoderDecode fuel r (171 :: tag :: 2 :: hi :: lo :: payload) = .error .truncated := by
  simp only [decoderDecode, readByte, List.take_succ_cons, List.take_zero,
    readFull_cons_two, beVal_two]
  rw [readFull_too_short (hi * 256 + lo) payload h]
  simp

theorem structFields_payload_truncated (r : Registry)
    (dec : CodecDesc → List Nat → Except CErr Value)
    (name : String) (ftag : Nat) (rest : List (String × Nat))
    (lol hi lo : Nat) (bytes : List Nat) (h : bytes.length < hi * 256 + lo) :
    decodeStructFields dec r ((name, ftag) :: rest) (ftag :: lol :: hi :: lo :: bytes)
      = .error .truncated := by
  simp only [decodeStructFields, readByte, readFull_cons_two, beVal_two]
  rw [readFull_too_short (hi * 256 + lo) bytes h]
  simp

theorem countedElems_payload_truncated (dec : List Nat → Except CErr Value)
    (n b3 b2 b1 b0 : Nat) (rest : List Nat)
    (h : rest.length < ((b3 * 256 + b2) * 256 + b1) * 256 + b0) :
    decodeCountedElems dec (n + 1) (b3 :: b2 :: b1 :: b0 :: rest) = .error .truncated := by
  simp only [decodeCountedElems, readByte, readFull_cons_four, beVal_four]
  rw [readFull_too_short (((b3 * 256 + b2) * 256 + b1) * 256 + b0) rest h]

theorem structCodec_payload_truncated (f : Nat) (r : Registry) (sn : String) (sf : Fields)
    (name : String) (ftag : Nat) (rest : List (String × Nat))
    (lol hi lo : Nat) (bytes : List Nat) (h : bytes.length < hi * 256 + lo) :
    codecDecode (f + 1) r (.structC (.tStruct sn sf) ((name, ftag) :: rest))
      (ftag :: lol :: hi :: lo :: bytes) = .error .truncated := by
  simp only [codecDecode]
  rw [structFields_payload_truncated r _ name ftag rest lol hi lo bytes h]

theorem sliceCodec_payload_truncated (f : Nat) (r : Registry) (ec : CodecDesc) (et : Ty)
    (n b3 b2 b1 b0 : Nat) (rest : List Nat)
    (h : rest.length < ((b3 * 256 + b2) * 256 + b1) * 256 + b0) :
    codecDecode (f + 1) r (.sliceC ec et)
      (0 :: 0 :: 0 :: (n + 1) :: b3 :: b2 :: b1 :: b0 :: rest) = .error .truncated := by
  simp only [codecDecode, readFull_cons_four, beVal_four]
  have hv : ((0 * 256 + 0) * 256 + 0) * 256 + (n + 1) = n + 1 := by ring
  rw [hv, countedElems_payload_truncated _ n b3 b2 b1 b0 rest h]

/-- C3: a declared length that exceeds the bytes actually available always
surfaces as the short-read error, with no out-of-bounds access, at every
layer the claim names: the frame payload read of `Decoder.Decode`, the
per-field payload read of `StructCodec.Decode` (stated at the current field
of the decode loop, hence at any position), the per-element payload read
shared by `SliceCodec.Decode` and `ArrayCodec.Decode`, and the two whole
codecs wrapping those loops. -/
theorem claim3_truncation_safety :
    (∀ (fuel : Nat) (r : Registry) (tag hi lo : Nat) (payload : List Nat),
      payload.length < hi * 256 + lo →
      decoderDecode fuel r (171 :: tag :: 2 :: hi :: lo :: payload) = .error .truncated) ∧
    (∀ (r : Registry) (dec : CodecDesc → List Nat → Except CErr Value)
       (name : String) (ftag : Nat) (rest : List (String × Nat))
       (lol hi lo : Nat) (bytes : List Nat),
      bytes.length < hi * 256 + lo →
      decodeStructFields dec r ((name, ftag) :: rest) (ftag :: lol :: hi :: lo :: bytes)
        = .error .truncated) ∧
    (∀ (dec : List Nat → Except CErr Value) (n b3 b2 b1 b0 : Nat) (rest : List Nat),
      rest.length < ((b3 * 256 + b2) * 256 + b1) * 256 + b0 →
      decodeCountedElems dec (n + 1) (b3 :: b2 :: b1 :: b0 :: rest) = .error .truncated) ∧
    (∀ (f : Nat) (r : Registry) (sn : String) (sf : Fields) (name : String) (ftag : Nat)
       (rest : List (String × Nat)) (lol hi lo : Nat) (bytes : List Nat),
      bytes.length < hi * 256 + lo →
      codecDecode (f + 1) r (.structC (.tStruct sn sf) ((name, ftag) :: rest))
        (ftag :: lol :: hi :: lo :: bytes) = .error .truncated) ∧
    (∀ (f : Nat) (r : Registry) (ec : CodecDesc) (et : Ty) (n b3 b2 b1 b0 : Nat)
       (rest : List Nat),
      rest.length < ((b3 * 256 + b2) * 256 + b1) * 256 + b0 →
      codecDecode (f + 1) r (.sliceC ec et)
        (0 :: 0 :: 0 :: (n + 1) :: b3 :: b2 :: b1 :: b0 :: rest) = .error .truncated) :=
  ⟨decoder_payload_truncated,
   structFields_payload_truncated,
   countedElems_payload_truncated,
   structCodec_payload_truncated,
   sliceCodec_payload_truncated⟩

/-- C3 witness: a frame declaring 4 payload bytes but supplying none, a
struct field declaring 9 bytes with none available, and a slice declaring a
4-byte element with a single byte left, each decode to the short-read
error. -/
theorem claim3_truncation_safety_witness :
    decoderDecode 1 primedRegistry [171, 1, 2, 0, 4] = .error .truncated ∧
    codecDecode 1 primedRegistry (.structC (.tStruct "S" .fnil) [("A", 1)]) [1, 2, 0, 9]
      = .error .truncated ∧
    codecDecode 1 primedRegistry (.sliceC .int32C .tInt32) [0, 0, 0, 1, 0, 0, 0, 4, 9]
      = .error .truncated :=
  ⟨claim3_truncation_safety.1 1 primedRegistry 1 0 4 [] (by decide),
   claim3_truncation_safety.2.2.2.1 0 primedRegistry "S" .fnil "A" 1 [] 2 0 9 [] (by decide),
   claim3_truncation_safety.2.2.2.2 0 primedRegistry .int32C .tInt32 0 0 0 0 4 [9] (by decide)⟩

/-! ## Length-of-length behaviour (claim C9) -/

theorem decoder_lol_small_panics (fuel : Nat) (r : Registry) (tag lol : Nat) (rest : List Nat)
    (h1 : lol < 2) (h2 : lol ≤ rest.length) :
    decoderDecode fuel r (171 :: tag :: lol :: rest) = .error .panicked := by
  match lol, h1 with
  | 0, _ => simp [decoderDecode, readByte, readFull]
  | 1, _ =>
    match rest, h2 with
    | [], h2 => simp at h2
    | b :: rest2, _ => simp [decoderDecode, readByte, readFull]

theorem decoder_lol_first_two (fuel : Nat) (r : Registry) (tag lol : Nat) (rest : List Nat)
    (h1 : 2 ≤ lol) (h2 : lol ≤ rest.length) :
    decoderDecode fuel r (171 :: tag :: lol :: rest)
      = decoderDecode fuel r (171 :: tag :: 2 :: (rest.take 2 ++ rest.drop lol)) := by
  have hLen : 2 ≤ rest.length := le_trans h1 h2
  have hTL : (rest.take lol).length = lol := by
    rw [List.length_take]; exact Nat.min_eq_left h2
  have hT2 : (rest.take 2).length = 2 := by
    rw [List.length_take]; exact Nat.min_eq_left hLen
  have hR : (2 : Nat) ≤ (rest.take 2 ++ rest.drop lol).length := by
    simp [hT2]
  have e1 : List.take 2 (List.take lol rest) = List.take 2 rest := by
    rw [List.take_take]; exact congrArg (fun m => List.take m rest) (Nat.min_eq_left h1)
  have e2 : List.drop 2 (List.take 2 rest) = [] :=
    List.drop_eq_nil_of_le (le_of_eq hT2)
  simp only [decoderDecode, readByte]
  rw [readFull_exact lol rest h2, readFull_exact 2 (rest.take 2 ++ rest.drop lol) hR]
  rw [List.take_append_of_le_length (le_of_eq hT2.symm),
    List.drop_append_of_le_length (le_of_eq hT2.symm)]
  simp [hTL, hT2, Nat.not_lt.mpr h1, e1, e2, List.take_take]

/-- C9 (counterexample): `Decoder.Decode` is not total — a frame whose
length-of-length byte is 0, or 1 with the length byte present, reaches
`binary.BigEndian.Uint16` with fewer than two bytes and panics with an
index-out-of-range, instead of returning a value or an error. -/
theorem claim9_lol_small_panics_cex :
    decoderDecode 1 primedRegistry [171, 1, 0] = .error .panicked ∧
    decoderDecode 1 primedRegistry [171, 1, 1, 7] = .error .panicked := ⟨rfl, rfl⟩

/-- C9 (amended): `Decoder.Decode` reads exactly length-of-length bytes and
interprets the first two of them as the big-endian 16-bit payload length —
for any `lol ≥ 2` the stream behaves exactly as if the length field were
the first two of those bytes with the rest discarded — but for `lol < 2`
with the length bytes present it panics inside `binary.BigEndian.Uint16`
rather than returning an error. -/
theorem claim9_decode_lol_amended :
    (∀ (fuel : Nat) (r : Registry) (tag lol : Nat) (rest : List Nat),
      lol < 2 → lol ≤ rest.length →
      decoderDecode fuel r (171 :: tag :: lol :: rest) = .error .panicked) ∧
    (∀ (fuel : Nat) (r : Registry) (tag lol : Nat) (rest : List Nat),
      2 ≤ lol → lol ≤ rest.length →
      decoderDecode fuel r (171 :: tag :: lol :: rest)
        = decoderDecode fuel r (171 :: tag :: 2 :: (rest.take 2 ++ rest.drop lol))) :=
  ⟨decoder_lol_small_panics, decoder_lol_first_two⟩

/-- C9 witness: a length-of-length of 1 with its byte present panics, and a
length-of-length of 3 behaves exactly like 2 with the extra length byte
dropped. -/
theorem claim9_decode_lol_amended_witness :
    decoderDecode 1 primedRegistry [171, 3, 1, 5, 9] = .error .panicked ∧
    decoderDecode 1 primedRegistry (171 :: 1 :: 3 :: [0, 4, 9, 0, 0, 0, 42, 205])
      = decoderDecode 1 primedRegistry
          (171 :: 1 :: 2 :: ([0, 4, 9, 0, 0, 0, 42, 205].take 2
            ++ [0, 4, 9, 0, 0, 0, 42, 205].drop 3)) :=
  ⟨claim9_decode_lol_amended.1 1 primedRegistry 3 1 [5, 9] (by decide) (by decide),
   claim9_decode_lol_amended.2 1 primedRegistry 1 3 [0, 4, 9, 0, 0, 0, 42, 205]
     (by decide) (by decide)⟩

/-! ## Tag stability (claim C5) -/

theorem registerStructGo_sets (res : Registry → Ty → Except CErr (Registry × Nat))
    (r : Registry) (sn : String) (sf : Fields) (r1 : Registry) (tag : Nat)
    (h : registerStructGo res r (.tStruct sn sf) = .ok (r1, tag)) :
    lookupType r1.types (.tStruct sn sf) = some tag := by
  unfold registerStructGo at h
  simp only at h
  repeat' split at h
  all_goals try simp at h
  all_goals obtain ⟨rfl, rfl⟩ := h
  all_goals first
    | assumption
    | simp [registerCodec, lookupType]

theorem resolveType_sets : ∀ (fuel : Nat) (r : Registry) (t : Ty) (r1 : Registry) (tag : Nat),
    resolveType fuel r t = .ok (r1, tag) → lookupType r1.types t = some tag := by
  intro fuel r t r1 tag h
  match fuel with
  | 0 => simp [resolveType] at h
  | f + 1 =>
    simp only [resolveType] at h
    repeat' split at h
    all_goals try simp at h
    all_goals try exact registerStructGo_sets _ _ _ _ _ _ h
    all_goals obtain ⟨rfl, rfl⟩ := h
    all_goals first
      | assumption
      | simp [registerCodec, lookupType]

theorem registerStruct_sets (fuel : Nat) (r : Registry) (sn : String) (sf : Fields)
    (r1 : Registry) (tag : Nat)
    (h : registerStruct fuel r (.tStruct sn sf) = .ok (r1, tag)) :
    lookupType r1.types (.tStruct sn sf) = some tag := by
  match fuel with
  | 0 => simp [registerStruct] at h
  | f + 1 => exact registerStructGo_sets _ _ _ _ _ _ h

/-- C5: resolution is idempotent and allocation-free on repetition.  After
a first successful `resolveType` of a type, calling `resolveType`, `GetTag`
or (for a struct type) `RegisterStruct` again returns exactly the tag the
first call bound and leaves the registry untouched — no new tag, no changed
codec binding; likewise after a first successful `RegisterStruct`. -/
theorem claim5_resolve_idempotent :
    (∀ (f1 f2 : Nat) (r : Registry) (t : Ty) (r1 : Registry) (tag : Nat),
      resolveType f1 r t = .ok (r1, tag) →
      resolveType (f2 + 1) r1 t = .ok (r1, tag) ∧
      getTag f2 r1 t = .ok (r1, tag) ∧
      (∀ (sn : String) (sf : Fields), t = .tStruct sn sf →
        registerStruct (f2 + 1) r1 t = .ok (r1, tag))) ∧
    (∀ (f1 f2 : Nat) (r : Registry) (sn : String) (sf : Fields) (r2 : Registry) (tag2 : Nat),
      registerStruct f1 r (.tStruct sn sf) = .ok (r2, tag2) →
      registerStruct (f2 + 1) r2 (.tStruct sn sf) = .ok (r2, tag2) ∧
      resolveType (f2 + 1) r2 (.tStruct sn sf) = .ok (r2, tag2) ∧
      getTag f2 r2 (.tStruct sn sf) = .ok (r2, tag2)) := by
  constructor
  · intro f1 f2 r t r1 tag h
    have hl := resolveType_sets f1 r t r1 tag h
    refine ⟨?_, ?_, ?_⟩
    · simp [resolveType, hl]
    · simp [getTag, hl]
    · intro sn sf ht
      subst ht
      simp [registerStruct, registerStructGo, hl]
  · intro f1 f2 r sn sf r2 tag2 h
    have hl := registerStruct_sets f1 r sn sf r2 tag2 h
    refine ⟨?_, ?_, ?_⟩
    · simp [registerStruct, registerStructGo, hl]
    · simp [resolveType, hl]
    · simp [getTag, hl]

/-- The registry after resolving `*int32` against the primed registry (the
pointer codec is bound to tag 200). -/
def ptrIntReg : Registry :=
  (resolvedReg (resolveType 10 primedRegistry (.tPtr .tInt32))).getD newCodecRegistry

/-- C5 witness: after `*int32` is resolved to tag 200, resolving it again
— with any fuel, here the minimum — returns tag 200 and the identical
registry. -/
theorem claim5_resolve_idempotent_witness :
    resolveType 1 ptrIntReg (.tPtr .tInt32) = .ok (ptrIntReg, 200) ∧
    getTag 0 ptrIntReg (.tPtr .tInt32) = .ok (ptrIntReg, 200) :=
  ⟨(claim5_resolve_idempotent.1 10 0 primedRegistry (.tPtr .tInt32) ptrIntReg 200 rfl).1,
   (claim5_resolve_idempotent.1 10 0 primedRegistry (.tPtr .tInt32) ptrIntReg 200 rfl).2.1⟩

/-! ## Tag allocation (claim C4) -/

/-- The `k` consecutive values of the byte counter starting at `a`
(wrapping modulo 256), in allocation order. -/
def tagWindow (a k : Nat) : List Nat :=
  (List.range k).map (fun i => (a + i) % 256)

/-- How a registry grows across a resolution call: the codec table gains a
prefix `P` of newly registered bindings (newest first) whose tags are, in
chronological order, exactly the window of byte-counter values starting at
the old `nextStructTag`, and the counter advances by `P.length` modulo
256.  Stated under the invariant that the counter is a byte value. -/
def tagsGrew (r r1 : Registry) : Prop :=
  r.nextStructTag < 256 →
  ∃ P : List (Nat × CodecDesc),
    r1.codecs = P ++ r.codecs ∧
    P.map Prod.fst = (tagWindow r.nextStructTag P.length).reverse ∧
    r1.nextStructTag = (r.nextStructTag + P.length) % 256 ∧
    r1.nextStructTag < 256

theorem tagWindow_zero (a : Nat) : tagWindow a 0 = [] := rfl

theorem tagWindow_succ (a k : Nat) :
    tagWindow a (k + 1) = tagWindow a k ++ [(a + k) % 256] := by
  unfold tagWindow
  rw [List.range_succ k, List.map_append]
  rfl

theorem tagWindow_append (a k1 k2 : Nat) :
    tagWindow a (k1 + k2) = tagWindow a k1 ++ tagWindow ((a + k1) % 256) k2 := by
  induction k2 with
  | zero => simp [tagWindow_zero]
  | succ n ihn =>
    have e : (a + (k1 + n)) % 256 = ((a + k1) % 256 + n) % 256 := by
      rw [Nat.mod_add_mod (a + k1) 256 n, Nat.add_assoc]
    rw [show k1 + (n + 1) = (k1 + n) + 1 by ring, tagWindow_succ, ihn,
      tagWindow_succ ((a + k1) % 256) n, e, List.append_assoc]

theorem tagsGrew_refl (r : Registry) : tagsGrew r r := by
  intro hn
  exact ⟨[], by simp [tagWindow_zero], by simp [tagWindow_zero],
    by simp [Nat.mod_eq_of_lt hn], hn⟩

theorem tagsGrew_trans (r1 r2 r3 : Registry)
    (h12 : tagsGrew r1 r2) (h23 : tagsGrew r2 r3) : tagsGrew r1 r3 := by
  intro hn
  obtain ⟨P1, hc1, hm1, hx1, hlt1⟩ := h12 hn
  obtain ⟨P2, hc2, hm2, hx2, hlt2⟩ := h23 hlt1
  refine ⟨P2 ++ P1, ?_, ?_, ?_, ?_⟩
  · rw [hc2, hc1, List.append_assoc]
  · rw [List.map_append, hm1, hm2, hx1, List.length_append,
      Nat.add_comm P2.length P1.length,
      tagWindow_append r1.nextStructTag P1.length P2.length, List.reverse_append]
  · rw [hx2, hx1, Nat.mod_add_mod, List.length_append]
    exact congrArg (fun x => x % 256) (by ring)
  · exact hlt2

theorem tagsGrew_alloc (r : Registry) (c : CodecDesc) (t : Ty) :
    tagsGrew r (registerCodec { r with nextStructTag := (r.nextStructTag + 1) % 256 }
      r.nextStructTag c t) := by
  intro hn
  refine ⟨[(r.nextStructTag, c)], by simp [registerCodec], ?_, by simp [registerCodec], ?_⟩
  · simp [tagWindow_succ, tagWindow_zero, Nat.mod_eq_of_lt hn]
  · simp [registerCodec]
    exact Nat.mod_lt _ (by norm_num)

theorem resolveFields_grew (res : Registry → Ty → Except CErr (Registry × Nat))
    (hres : ∀ (r : Registry) (t : Ty) (r1 : Registry) (tag : Nat),
      res r t = .ok (r1, tag) → tagsGrew r r1) :
    ∀ (fs : Fields) (r r1 : Registry) (ds : List (String × Nat)),
      resolveFields res r fs = .ok (r1, ds) → tagsGrew r r1
  | .fnil, r, r1, ds, h => by
    simp only [resolveFields] at h
    simp at h
    obtain ⟨rfl, rfl⟩ := h
    exact tagsGrew_refl r
  | .fcons n t rest, r, r1, ds, h => by
    simp only [resolveFields] at h
    split at h
    · simp at h
    · rename_i rA tA hA
      split at h
      · simp at h
      · rename_i rB dB hB
        simp at h
        obtain ⟨rfl, rfl⟩ := h
        exact tagsGrew_trans _ _ _ (hres r t rA tA hA)
          (resolveFields_grew res hres rest _ _ _ hB)

theorem registerStructGo_grew_struct (res : Registry → Ty → Except CErr (Registry × Nat))
    (hres : ∀ (r : Registry) (t : Ty) (r1 : Registry) (tag : Nat),
      res r t = .ok (r1, tag) → tagsGrew r r1)
    (r : Registry) (sn : String) (sf : Fields) (r1 : Registry) (tag : Nat)
    (h : registerStructGo res r (.tStruct sn sf) = .ok (r1, tag)) : tagsGrew r r1 := by
  unfold registerStructGo at h
  simp only at h
  repeat' split at h
  all_goals try simp at h
  all_goals obtain ⟨rfl, rfl⟩ := h
  · exact tagsGrew_refl _
  · rename_i hB
    exact tagsGrew_trans _ _ _ (resolveFields_grew res hres sf _ _ _ hB)
      (tagsGrew_alloc _ _ _)

theorem registerStructGo_grew (res : Registry → Ty → Except CErr (Registry × Nat))
    (hres : ∀ (r : Registry) (t : Ty) (r1 : Registry) (tag : Nat),
      res r t = .ok (r1, tag) → tagsGrew r r1)
    (r : Registry) (t0 : Ty) (r1 : Registry) (tag : Nat)
    (h : registerStructGo res r t0 = .ok (r1, tag)) : tagsGrew r r1 := by
  cases t0
  case tStruct sn sf => exact registerStructGo_grew_struct res hres r sn sf r1 tag h
  case tPtr elem =>
    cases elem
    case tStruct sn sf =>
      have h2 : registerStructGo res r (.tStruct sn sf) = .ok (r1, tag) := h
      exact registerStructGo_grew_struct res hres r sn sf r1 tag h2
    all_goals simp [registerStructGo] at h
  all_goals simp [registerStructGo] at h

theorem resolveType_grew : ∀ (fuel : Nat) (r : Registry) (t : Ty) (r1 : Registry) (tag : Nat),
    resolveType fuel r t = .ok (r1, tag) → tagsGrew r r1 := by
  intro fuel
  induction fuel with
  | zero => intro r t r1 tag h; simp [resolveType] at h
  | succ f ih =>
    intro r t r1 tag h
    simp only [resolveType] at h
    repeat' split at h
    all_goals try simp at h
    all_goals try exact registerStructGo_grew _ (fun a b c d hh => ih a b c d hh) _ _ _ _ h
    all_goals obtain ⟨rfl, rfl⟩ := h
    all_goals first
      | exact tagsGrew_refl _
      | exact tagsGrew_alloc _ _ _
      | exact tagsGrew_trans _ _ _ (ih _ _ _ _ (by assumption)) (tagsGrew_alloc _ _ _)
      | exact tagsGrew_trans _ _ _
          (tagsGrew_trans _ _ _ (ih _ _ _ _ (by assumption)) (ih _ _ _ _ (by assumption)))
          (tagsGrew_alloc _ _ _)

theorem resolveAll_grew : ∀ (fuel : Nat) (ts : List Ty) (r r1 : Registry),
    resolveAll fuel r ts = .ok r1 → tagsGrew r r1 := by
  intro fuel ts
  induction ts with
  | nil =>
    intro r r1 h
    simp only [resolveAll] at h
    simp at h
    subst h
    exact tagsGrew_refl r
  | cons t rest iht =>
    intro r r1 h
    simp only [resolveAll] at h
    split at h
    · simp at h
    · rename_i rA tA hA
      exact tagsGrew_trans _ _ _ (resolveType_grew fuel r t rA tA hA) (iht rA r1 h)

/-- C4 (amended): auto-assigned composite tags are successive values of the
byte counter `nextStructTag`: starting from a registry whose counter is at
200, any sequence of successful registrations that allocates at most 56
composite tags hands out exactly the tags 200, 201, ... in chronological
order — all at least 200 and below 256, strictly increasing, none assigned
twice.  The counter is a `byte`, so the 57th allocation wraps modulo 256
(see the counterexample), which is what the unbounded claim misses. -/
theorem claim4_tags_monotone_bounded :
    ∀ (fuel : Nat) (ts : List Ty) (r r1 : Registry),
      r.nextStructTag = 200 →
      resolveAll fuel r ts = .ok r1 →
      r1.codecs.length ≤ r.codecs.length + 56 →
      ∃ k, r1.codecs.length = r.codecs.length + k ∧
        (k < 56 → r1.nextStructTag = 200 + k) ∧
        ((r1.codecs.take k).map Prod.fst).reverse
          = (List.range k).map (fun i => 200 + i) ∧
        (∀ x ∈ (r1.codecs.take k).map Prod.fst, 200 ≤ x ∧ x < 256) ∧
        (((r1.codecs.take k).map Prod.fst).reverse).Pairwise (· < ·) := by
  intro fuel ts r r1 h200 hres hbound
  obtain ⟨P, hc, hm, hx, hlt⟩ := resolveAll_grew fuel ts r r1 hres (by rw [h200]; norm_num)
  have hlen : r1.codecs.length = r.codecs.length + P.length := by
    rw [hc, List.length_append]
    ring
  have hk56 : P.length ≤ 56 := by omega
  have hTakeP : r1.codecs.take P.length = P := by
    rw [hc]
    exact List.take_left P r.codecs
  have twEq : tagWindow 200 P.length = (List.range P.length).map (fun i => 200 + i) := by
    unfold tagWindow
    apply List.map_congr_left
    intro i hi
    rw [List.mem_range] at hi
    exact Nat.mod_eq_of_lt (by omega)
  have hTake : (r1.codecs.take P.length).map Prod.fst
      = ((List.range P.length).map (fun i => 200 + i)).reverse := by
    rw [hTakeP, hm, h200, twEq]
  refine ⟨P.length, hlen, ?_, ?_, ?_, ?_⟩
  · intro hklt
    rw [hx, h200]
    exact Nat.mod_eq_of_lt (by omega)
  · rw [hTake, List.reverse_reverse]
  · intro x hx2
    rw [hTake] at hx2
    simp only [List.mem_reverse, List.mem_map, List.mem_range] at hx2
    obtain ⟨i, hik, rfl⟩ := hx2
    omega
  · rw [hTake, List.reverse_reverse]
    rw [List.pairwise_map]
    exact (List.pairwise_lt_range P.length).imp (by omega)

/-- C4 (counterexample): resolving a 57-fold pointer chain against the
freshly primed registry allocates 57 composite tags; the first 56 exhaust
200..255 and the 57th — the tag returned for the whole chain — wraps the
byte counter to 0, violating "every auto-assigned tag is at least 200, no
matter how many composite types are registered". -/
theorem claim4_tag_wrap_cex :
    resolvedTag (resolveType 60 primedRegistry (ptrN 57 .tInt32)) = some 0 ∧
    ¬ (200 : Nat) ≤ 0 := ⟨rfl, by decide⟩

/-- The registry after registering the two composite types `*int32` and
`[]int32` against the primed registry. -/
def twoCompReg : Registry :=
  (resolveAll 10 primedRegistry [.tPtr .tInt32, .tSlice .tInt32]).toOption.getD newCodecRegistry

/-- C4 witness: the amended statement applied to the concrete two-type
registration sequence (tags 200 and 201 are allocated in order). -/
theorem claim4_tags_monotone_bounded_witness :
    ∃ k, twoCompReg.codecs.length = primedRegistry.codecs.length + k ∧
      (k < 56 → twoCompReg.nextStructTag = 200 + k) ∧
      ((twoCompReg.codecs.take k).map Prod.fst).reverse
        = (List.range k).map (fun i => 200 + i) ∧
      (∀ x ∈ (twoCompReg.codecs.take k).map Prod.fst, 200 ≤ x ∧ x < 256) ∧
      (((twoCompReg.codecs.take k).map Prod.fst).reverse).Pairwise (· < ·) :=
  claim4_tags_monotone_bounded 10 [.tPtr .tInt32, .tSlice .tInt32] primedRegistry twoCompReg
    rfl rfl (by decide)

/-! ## Struct encode determinism (claim C8) -/

theorem goValEqL_eq (eq2 : Value → Value → Bool) (mf : Value → Bool)
    (hsub : ∀ v w, mf v = true → eq2 v w = true → v = w) :
    ∀ xs ys, mapFreeL mf xs = true → goValEqL eq2 xs ys = true → xs = ys
  | .vnil, .vnil, _, _ => rfl
  | .vnil, .vcons y ys, _, hg => by simp [goValEqL] at hg
  | .vcons x xs, .vnil, _, hg => by simp [goValEqL] at hg
  | .vcons x xs, .vcons y ys, hm, hg => by
    simp only [goValEqL, Bool.and_eq_true] at hg
    simp only [mapFreeL, Bool.and_eq_true] at hm
    rw [hsub x y hm.1 hg.1, goValEqL_eq eq2 mf hsub xs ys hm.2 hg.2]

theorem goValEq_eq_of_mapFree :
    ∀ (f : Nat) (v w : Value), mapFree f v = true → goValEq f v w = true → v = w := by
  intro f
  induction f with
  | zero => intro v w hm; simp [mapFree] at hm
  | succ f ih =>
    intro v w hm hg
    cases v
    case vPtrSome t a =>
      simp only [mapFree] at hm
      cases w <;> simp [goValEq] at hg
      case vPtrSome u b =>
        obtain ⟨rfl, hg2⟩ := hg
        rw [ih a b hm hg2]
    case vSlice t xs =>
      simp only [mapFree] at hm
      cases w <;> simp [goValEq] at hg
      case vSlice u ys =>
        obtain ⟨rfl, hg2⟩ := hg
        rw [goValEqL_eq (goValEq f) (mapFree f) ih xs ys hm hg2]
    case vArray t xs =>
      simp only [mapFree] at hm
      cases w <;> simp [goValEq] at hg
      case vArray u ys =>
        obtain ⟨rfl, hg2⟩ := hg
        rw [goValEqL_eq (goValEq f) (mapFree f) ih xs ys hm hg2]
    case vMap k1 w1 e1 => simp [mapFree] at hm
    case vStruct n1 fs1 vs1 =>
      simp only [mapFree] at hm
      cases w <;> simp [goValEq] at hg
      case vStruct n2 fs2 vs2 =>
        obtain ⟨⟨rfl, rfl⟩, hg2⟩ := hg
        rw [goValEqL_eq (goValEq f) (mapFree f) ih vs1 vs2 hm hg2]
    all_goals simp [goValEq] at hg
    all_goals exact hg

def mapFieldTy : Fields := .fcons "M" (.tMap .tString .tInt32) .fnil

def vMapAB : Value := .vStruct "S" mapFieldTy
  (.vcons (.vMap .tString .tInt32
    (.econs (.vString [97]) (.vInt32 1) (.econs (.vString [98]) (.vInt32 2) .enil))) .vnil)

def vMapBA : Value := .vStruct "S" mapFieldTy
  (.vcons (.vMap .tString .tInt32
    (.econs (.vString [98]) (.vInt32 2) (.econs (.vString [97]) (.vInt32 1) .enil))) .vnil)

/-- C8 (counterexample): two representations of the *same* Go struct value
— its one field is a map with the entries {"a": 1, "b": 2}, presented in the
two iteration orders Go may use across two encode calls — are Go-equal
(`goValEq`), both encode successfully, and yield different frame bytes: the
claimed byte-identical encoding fails for structs with map-typed fields. -/
theorem claim8_map_order_cex :
    goValEq 5 vMapAB vMapBA = true ∧
    (encoderEncode 10 primedRegistry vMapAB).toOption.map Prod.snd
      ≠ (encoderEncode 10 primedRegistry vMapBA).toOption.map Prod.snd ∧
    (encoderEncode 10 primedRegistry vMapAB).toOption.isSome = true ∧
    (encoderEncode 10 primedRegistry vMapBA).toOption.isSome = true :=
  ⟨by decide, by decide, by decide, by decide⟩

/-- C8 (amended): byte-identical frames hold for every struct (indeed every
value) containing no map anywhere: Go equality then coincides with
structural equality and encoding is a function of the value, so two encodes
of the same value produce identical bytes; only map iteration order (which
Go does not fix) can vary the frame. -/
theorem claim8_encode_deterministic_mapfree :
    ∀ (fg fe : Nat) (r : Registry) (c : CodecDesc) (v w : Value),
      mapFree fg v = true → goValEq fg v w = true →
      codecEncode fe r c v = codecEncode fe r c w := by
  intro fg fe r c v w hm hg
  rw [goValEq_eq_of_mapFree fg v w hm hg]

def vPlainStruct : Value := .vStruct "P" (.fcons "X" .tInt32 .fnil) (.vcons (.vInt32 7) .vnil)

/-- C8 witness: the amended statement applied to a map-free one-field
struct, related to itself by Go equality. -/
theorem claim8_encode_deterministic_mapfree_witness :
    codecEncode 1 primedRegistry (.structC (.tStruct "P" (.fcons "X" .tInt32 .fnil)) [("X", 1)])
        vPlainStruct
      = codecEncode 1 primedRegistry
          (.structC (.tStruct "P" (.fcons "X" .tInt32 .fnil)) [("X", 1)]) vPlainStruct :=
  claim8_encode_deterministic_mapfree 2 1 primedRegistry _ vPlainStruct vPlainStruct (by decide) (by decide)
